import Mathlib

/-!
Verification of the request-dispatch core of the bocadillo web framework
(`bocadillo/api.py` and `bocadillo/extensions/base.py`), as a shallow
embedding in Lean 4.

Python dictionaries are modelled as insertion-ordered association lists
with unique keys: assignment to an existing key replaces the value in
place (keeping its position), assignment to a fresh key appends.
-/

set_option autoImplicit false

namespace Bocadillo

variable {α : Type} {β : Type}

/-- Python dict assignment `d[k] = v`: replace the value at the first
occurrence of `k` in place, or append `(k, v)` when `k` is absent. -/
def dictInsert [DecidableEq α] (k : α) (v : β) : List (α × β) → List (α × β)
  | [] => [(k, v)]
  | (k', v') :: rest =>
    if k' = k then (k, v) :: rest else (k', v') :: dictInsert k v rest

/-- Python dict lookup `d.get(k)`: the value at the first occurrence of `k`. -/
def dictGet [DecidableEq α] (k : α) : List (α × β) → Option β
  | [] => none
  | (k', v) :: rest => if k' = k then some v else dictGet k rest

/-- Lookup with a default, as in `d.get(k, default)`. -/
def dictGetD [DecidableEq α] (k : α) (dflt : β) (d : List (α × β)) : β :=
  (dictGet k d).getD dflt

theorem dictGet_dictInsert_self [DecidableEq α] (k : α) (v : β)
    (d : List (α × β)) : dictGet k (dictInsert k v d) = some v := by
  induction d with
  | nil => simp [dictInsert, dictGet]
  | cons p rest ih =>
    by_cases h : p.1 = k
    · simp [dictInsert, dictGet, h]
    · simp [dictInsert, dictGet, h, ih]

theorem dictGet_dictInsert_ne [DecidableEq α] (k k' : α) (v : β)
    (d : List (α × β)) (hne : k' ≠ k) :
    dictGet k' (dictInsert k v d) = dictGet k' d := by
  induction d with
  | nil => simp [dictInsert, dictGet, Ne.symm hne]
  | cons p rest ih =>
    obtain ⟨a, b⟩ := p
    by_cases h : a = k
    · subst h
      simp [dictInsert, dictGet, Ne.symm hne]
    · by_cases h' : a = k'
      · simp [dictInsert, dictGet, h, h', hne]
      · simp [dictInsert, dictGet, h, h', ih]

theorem length_dictInsert_of_mem [DecidableEq α] (k : α) (v v₀ : β)
    (d : List (α × β)) (hmem : dictGet k d = some v₀) :
    (dictInsert k v d).length = d.length := by
  induction d with
  | nil => simp [dictGet] at hmem
  | cons p rest ih =>
    by_cases h : p.1 = k
    · simp [dictInsert, h]
    · simp [dictGet, h] at hmem
      simp [dictInsert, h, ih hmem]

/-! ## Python string operations

Modelled over the character list so the kernel can evaluate them. -/

/-- Python `str.upper` (ASCII). -/
def strUpper (s : String) : String := ⟨s.data.map Char.toUpper⟩

/-- Python `str.startswith(pfx)`. -/
def strStartsWith (s pfx : String) : Bool := pfx.data.isPrefixOf s.data

/-- Python slicing `s[n:]`. -/
def strDrop (s : String) (n : Nat) : String := ⟨s.data.drop n⟩

/-- Python `len(s)`. -/
def strLen (s : String) : Nat := s.data.length

/-! ## Requests, responses and exceptions -/

/-- The part of a request that dispatch reads: `request.url.path` and the
HTTP method. -/
structure Request where
  path : String
  method : String
  deriving Repr, DecidableEq

/-- The part of a response that the dispatch core writes. -/
structure Response where
  statusCode : Nat
  content : String
  deriving Repr, DecidableEq

/-- A raised Python exception, identified by the method resolution order of
its class (the class name followed by all ancestor class names), plus the
payloads that the framework's own exception classes carry.
`isinstance(e, k)` is `k ∈ e.cls`. -/
structure Exc where
  cls : List String
  status : Nat := 0
  url : String := ""
  permanent : Bool := false
  deriving Repr, DecidableEq

/-- Modelled from the spec: `exceptions.py` is not under `src/`. `HTTPError`
is the structured HTTP error carrying a numeric status; it derives from
`Exception`. -/
def httpError (status : Nat) : Exc :=
  { cls := ["HTTPError", "Exception"], status := status }

/-- Modelled from the spec: `redirection.py` is not under `src/`.
`Redirection` is the internal redirect signal, an exception carrying a URL
and a permanent flag. -/
def redirection (url : String) (permanent : Bool) : Exc :=
  { cls := ["Redirection", "Exception"], url := url, permanent := permanent }

/-- Modelled from the spec: the response a `Redirection` converts to — a
temporary (302) or permanent (301) redirect toward the carried URL. -/
def redirectionResponse (e : Exc) : Response :=
  { statusCode := if e.permanent then 301 else 302, content := e.url }

/-- An error handler `(request, response, exception) -> None` that mutates
the response; modelled as returning the mutated response. -/
def Handler : Type := Request → Response → Exc → Response

/-- Modelled from the spec: `error_handlers.py` is not under `src/`. The
built-in handler for `HTTPError` sets the response status and a minimal
body from the error's status code. -/
def handleHttpError : Handler :=
  fun _req resp e => { resp with statusCode := e.status, content := toString e.status }

/-! ## Routes -/

/-- Modelled from the spec: `constants.py` is not under `src/`. The list of
all HTTP methods, used as the default for `route(methods=None)`. -/
def ALL_HTTP_METHODS : List String :=
  ["GET", "HEAD", "POST", "PUT", "DELETE", "CONNECT", "OPTIONS", "TRACE", "PATCH"]

/-- Extracted path parameters, as the keyword-argument mapping. -/
def Params : Type := List (String × String)

/-- A registered route. `route.py` is not under `src/`, so the compiled
matcher (`Route.match`), the per-request call (method check, before-hooks,
handler, after-hooks) and reverse URL generation (`Route.url`) are kept as
function fields, modelled from the spec: calling a route either returns the
mutated response or raises; matching a path either yields extracted
parameters or fails. -/
structure Route where
  pattern : String
  methods : List String
  name : Option String
  matchFn : String → Option Params
  call : Request → Response → Params → Except Exc Response
  urlFn : Params → String

/-- The application state that dispatch reads (`API.__init__` fields); apps
mounted via `mount` are identified by opaque numeric ids. -/
structure APIState where
  routes : List (String × Route)
  namedRoutes : List (String × Route)
  errorHandlers : List (String × Handler)
  extraApps : List (String × Nat)

/-- `API.add_error_handler`: `self._error_handlers.insert(0, (cls, handler))`. -/
def addErrorHandler (s : APIState) (kind : String) (h : Handler) : APIState :=
  { s with errorHandlers := (kind, h) :: s.errorHandlers }

/-- `API.__init__`: empty tables, then the built-in
`add_error_handler(HTTPError, handle_http_error)`. Extensions are not
modelled; none of the built-in extensions registers an error handler or a
route (they add middleware, mounts and aliased methods only). -/
def initAPI : APIState :=
  addErrorHandler
    { routes := [], namedRoutes := [], errorHandlers := [], extraApps := [] }
    "HTTPError" handleHttpError

/-- `API._find_matching_route`: iterate the registered patterns in insertion
order and return the first `(pattern, kwargs)` whose matcher succeeds, else
`(None, dictEmpty)`. -/
def findMatchingRoute : List (String × Route) → String → Option String × Params
  | [], _ => (none, [])
  | (pat, r) :: rest, path =>
    match r.matchFn path with
    | some kwargs => (some pat, kwargs)
    | none => findMatchingRoute rest path

/-- `API._find_handlers`: the generator yielding, front to back, the
handlers whose registered exception kind matches the raised exception via
`isinstance`. -/
def findHandlers (handlers : List (String × Handler)) (e : Exc) : List Handler :=
  handlers.filterMap (fun p => if p.1 ∈ e.cls then some p.2 else none)

/-- `API._handle_exception`: take the first matching handler and invoke it
(the `break` stops after one), or re-raise the exception when none matches
(the `for`-`else` branch). The first component records the handler invoked,
if any. -/
def handleException (s : APIState) (req : Request) (resp : Response)
    (e : Exc) : Option Handler × Except Exc Response :=
  match findHandlers s.errorHandlers e with
  | [] => (none, Except.error e)
  | h :: _ => (some h, Except.ok (h req resp e))

/-- The body of `API.route`: `methods` defaults to `ALL_HTTP_METHODS` when
`None` and every method is upper-cased; the `Route` object is built from
the pattern, view and name. -/
def makeRoute (pat : String) (methods? : Option (List String))
    (name? : Option String) (matchFn : String → Option Params)
    (call : Request → Response → Params → Except Exc Response)
    (urlFn : Params → String) : Route :=
  { pattern := pat
    methods := (methods?.getD ALL_HTTP_METHODS).map strUpper
    name := name?
    matchFn := matchFn
    call := call
    urlFn := urlFn }

/-- The wrapper of `API.route` applied to a view: store the route under its
pattern (`self._routes[pattern] = route`) and, when named, under its name
(`self._named_routes[name] = route`). -/
def routeRegister (s : APIState) (pat : String) (methods? : Option (List String))
    (name? : Option String) (matchFn : String → Option Params)
    (call : Request → Response → Params → Except Exc Response)
    (urlFn : Params → String) : APIState :=
  let route := makeRoute pat methods? name? matchFn call urlFn
  { s with
    routes := dictInsert pat route s.routes
    namedRoutes :=
      match name? with
      | some n => dictInsert n route s.namedRoutes
      | none => s.namedRoutes }

/-- `API._get_route_or_404`: look the name up in `_named_routes`, raising
`HTTPError(404)` on `KeyError`. -/
def getRouteOr404 (s : APIState) (name : String) : Except Exc Route :=
  match dictGet name s.namedRoutes with
  | some r => Except.ok r
  | none => Except.error (httpError 404)

/-- `API.url_for`: the named route's generated URL, or the 404 error. -/
def urlFor (s : APIState) (name : String) (kwargs : Params) : Except Exc String :=
  (getRouteOr404 s name).map (fun r => r.urlFn kwargs)

/-- `API.mount`: normalise the prefix to start with a slash and store the
app under it. -/
def mount (s : APIState) (pfx : String) (app : Nat) : APIState :=
  let pfx := if strStartsWith pfx "/" then pfx else "/" ++ pfx
  { s with extraApps := dictInsert pfx app s.extraApps }

/-- `API._find_app`, restricted to its observable routing decision: iterate
the mounted apps in insertion order; on the first prefix the path starts
with, delegate to that app with the prefix stripped from the path
(`scope['path'] = path[len(prefix):]`). `none` means no mount matched and
the request goes to `self._common_middleware(scope)` with the scope
unchanged. -/
def findApp : List (String × Nat) → String → Option (Nat × String)
  | [], _ => none
  | (pfx, app) :: rest, path =>
    if strStartsWith path pfx then some (app, strDrop path (strLen pfx))
    else findApp rest path

/-- The default `Response(request, media=...)` dispatch starts from. -/
def defaultResponse : Response := { statusCode := 200, content := "" }

/-- `API.dispatch`: find a matching route; a miss raises `HTTPError(404)`
into the outer handler; a matched route is called, with a raised
`Redirection` caught first (inner `except Redirection`) and converted into
its own response, and any other exception passed to `_handle_exception`.
The first component records the error handler invoked, if any; an
`Except.error` result is an exception re-raised out of dispatch. -/
def dispatch (s : APIState) (req : Request) : Option Handler × Except Exc Response :=
  let response := defaultResponse
  let found := findMatchingRoute s.routes req.path
  match found.1.bind (fun p => dictGet p s.routes) with
  | none => handleException s req response (httpError 404)
  | some route =>
    match route.call req response found.2 with
    | Except.ok resp => (none, Except.ok resp)
    | Except.error e =>
      if "Redirection" ∈ e.cls then (none, Except.ok (redirectionResponse e))
      else handleException s req response e

/-- A setup-time mutation of the application: registering a route,
registering an error handler, or mounting a sub-application. These are the
only operations in `api.py` that touch the dispatch-relevant state. -/
inductive SetupStep where
  | addRoute (pat : String) (methods? : Option (List String))
      (name? : Option String) (matchFn : String → Option Params)
      (call : Request → Response → Params → Except Exc Response)
      (urlFn : Params → String)
  | addErrHandler (kind : String) (h : Handler)
  | mountApp (pfx : String) (app : Nat)

/-- Apply one setup step to the application state. -/
def applyStep (s : APIState) : SetupStep → APIState
  | SetupStep.addRoute pat m n mf c u => routeRegister s pat m n mf c u
  | SetupStep.addErrHandler k h => addErrorHandler s k h
  | SetupStep.mountApp pfx app => mount s pfx app

/-- A state reachable from `API.__init__` by setup steps. -/
def setupAPI (steps : List SetupStep) : APIState :=
  steps.foldl applyStep initAPI

/-! ## Property aliasing (`extensions/base.py`) -/

/-- The descriptor `property(get_value, set_value)` installed by
`BaseExtension.alias_property`: both closures capture `this` (the extension
instance, here an opaque id) and read/write its attribute of the aliased
name; `set_value` exists only when `has_setter` was given. -/
structure PropDescriptor where
  extId : Nat
  hasSetter : Bool
  deriving Repr, DecidableEq

/-- An application object, reduced to the identity of its class
(`type(api)`). -/
structure ApiInstance where
  clsId : Nat
  deriving Repr, DecidableEq

/-- The mutable world the aliasing acts on: per-class property descriptors
(class attribute dictionaries) and per-extension attribute state
(`getattr(this, name)` / `setattr(this, name, value)`). -/
structure ExtWorld where
  classProps : List (Nat × List (String × PropDescriptor))
  extState : List ((Nat × String) × String)

/-- `BaseExtension.alias_property(api, name, has_setter)`:
`setattr(type(api), name, property(get_value, set_value))` — the descriptor
is installed on the class of `api`, not on the instance. -/
def aliasProperty (w : ExtWorld) (api : ApiInstance) (extId : Nat)
    (name : String) (hasSetter : Bool) : ExtWorld :=
  let clsDict := dictGetD api.clsId [] w.classProps
  let clsDict := dictInsert name ⟨extId, hasSetter⟩ clsDict
  { w with classProps := dictInsert api.clsId clsDict w.classProps }

/-- Reading the aliased property on an instance: Python finds the
descriptor on the instance's class and runs `get_value`, which returns
`getattr(this, name)` — the captured extension's attribute. -/
def getProp (w : ExtWorld) (api : ApiInstance) (name : String) : Option String :=
  (dictGet name (dictGetD api.clsId [] w.classProps)).bind
    (fun d => dictGet (d.extId, name) w.extState)

/-- Writing the aliased property on an instance: Python finds the
descriptor on the instance's class and runs `set_value`, which performs
`setattr(this, name, value)` on the captured extension; with no setter the
write fails (`AttributeError`), returned as `none`. -/
def setProp (w : ExtWorld) (api : ApiInstance) (name : String)
    (v : String) : Option ExtWorld :=
  (dictGet name (dictGetD api.clsId [] w.classProps)).bind
    (fun d =>
      if d.hasSetter then
        some { w with extState := dictInsert (d.extId, name) v w.extState }
      else none)

/-! ## Helper lemmas -/

theorem findHandlers_append (l₁ l₂ : List (String × Handler)) (e : Exc) :
    findHandlers (l₁ ++ l₂) e = findHandlers l₁ e ++ findHandlers l₂ e := by
  simp [findHandlers]

theorem findHandlers_eq_nil (l : List (String × Handler)) (e : Exc)
    (h : ∀ p ∈ l, p.1 ∉ e.cls) : findHandlers l e = [] := by
  induction l with
  | nil => rfl
  | cons p rest ih =>
    have hp : p.1 ∉ e.cls := h p (by simp)
    have hrest : ∀ q ∈ rest, q.1 ∉ e.cls := fun q hq => h q (by simp [hq])
    simpa [findHandlers, hp] using ih hrest

theorem foldl_addErrorHandler (regs : List (String × Handler)) (s : APIState) :
    (regs.foldl (fun st p => addErrorHandler st p.1 p.2) s).errorHandlers
      = regs.reverse ++ s.errorHandlers := by
  induction regs generalizing s with
  | nil => simp
  | cons p rest ih =>
    rw [List.foldl_cons, ih]
    simp [addErrorHandler]

theorem handleException_error (s : APIState) (req : Request) (resp : Response)
    (e e' : Exc) (o : Option Handler)
    (h : handleException s req resp e = (o, Except.error e')) :
    e' = e ∧ findHandlers s.errorHandlers e = [] := by
  cases hf : findHandlers s.errorHandlers e with
  | nil =>
    refine ⟨?_, rfl⟩
    simp [handleException, hf] at h
    exact h.2.symm
  | cons hd tl =>
    simp [handleException, hf] at h

theorem handleException_snd_error (s : APIState) (req : Request) (resp : Response)
    (e e' : Exc) (h : (handleException s req resp e).2 = Except.error e') :
    e' = e ∧ findHandlers s.errorHandlers e = [] := by
  cases hf : findHandlers s.errorHandlers e with
  | nil =>
    refine ⟨?_, rfl⟩
    simp [handleException, hf] at h
    exact h.symm
  | cons hd tl => simp [handleException, hf] at h

theorem dispatch_error_no_handlers (s : APIState) (req : Request) (e : Exc)
    (hdisp : (dispatch s req).2 = Except.error e) :
    findHandlers s.errorHandlers e = [] := by
  simp only [dispatch] at hdisp
  cases hroute : (findMatchingRoute s.routes req.path).1.bind
      (fun p => dictGet p s.routes) with
  | none =>
    simp only [hroute] at hdisp
    obtain ⟨he, hnil⟩ := handleException_snd_error _ _ _ _ _ hdisp
    subst he
    exact hnil
  | some route =>
    simp only [hroute] at hdisp
    cases hcall : route.call req defaultResponse
        (findMatchingRoute s.routes req.path).2 with
    | ok resp => simp only [hcall] at hdisp; simp at hdisp
    | error e' =>
      simp only [hcall] at hdisp
      by_cases hred : "Redirection" ∈ e'.cls
      · simp [hred] at hdisp
      · simp only [if_neg hred] at hdisp
        obtain ⟨he, hnil⟩ := handleException_snd_error _ _ _ _ _ hdisp
        subst he
        exact hnil

theorem handleException_of_mem (s : APIState) (req : Request) (resp : Response)
    (e : Exc) (k : String) (hdl : Handler)
    (hmem : (k, hdl) ∈ s.errorHandlers) (hcls : k ∈ e.cls) :
    ∃ h, handleException s req resp e = (some h, Except.ok (h req resp e)) := by
  have hne : findHandlers s.errorHandlers e ≠ [] := by
    intro hnil
    unfold findHandlers at hnil
    rw [List.filterMap_eq_nil_iff] at hnil
    have := hnil (k, hdl) hmem
    simp [hcls] at this
  cases hf : findHandlers s.errorHandlers e with
  | nil => exact absurd hf hne
  | cons hd tl => exact ⟨hd, by simp [handleException, hf]⟩

/-! ## Test fixtures for witnesses -/

/-- A view that returns the response unchanged. -/
def noCall : Request → Response → Params → Except Exc Response :=
  fun _ r _ => Except.ok r

/-- A constant reverse-URL generator. -/
def constUrl (u : String) : Params → String := fun _ => u

/-- A catch-all matcher: succeeds on every path. -/
def catchAllMatch : String → Option Params := fun path => some [("rest", path)]

/-- A matcher that only accepts the literal path `/items`. -/
def itemsMatch : String → Option Params :=
  fun path => if path = "/items" then some [] else none

/-- A catch-all route. -/
def routeCatchAll : Route := makeRoute "catchall" none none catchAllMatch noCall (constUrl "/c")

/-- A route specific to `/items`. -/
def routeItems : Route := makeRoute "/items" none none itemsMatch noCall (constUrl "/items")

/-- A handler registered for the specific kind `A`. -/
def hA : Handler := fun _ r _ => { r with statusCode := 501 }

/-- A handler registered for the general kind `Exception`. -/
def hExc : Handler := fun _ r _ => { r with statusCode := 502 }

/-- An instance of exception class `A` (which derives from `Exception`). -/
def excA : Exc := { cls := ["A", "Exception"] }

/-- An instance of `KeyError`. -/
def excKey : Exc := { cls := ["KeyError", "Exception"] }

/-- A concrete GET request. -/
def reqX : Request := { path := "/x", method := "GET" }

/-! ## Claims -/

/-- C1: `_find_matching_route` iterates the registered patterns in insertion
order and returns the first pattern whose matcher succeeds together with its
extracted parameters — no specificity ranking, so a catch-all registered
before a more specific matching pattern wins — and returns `(None, dict())`
when no pattern matches. -/
theorem find_matching_route_first_match :
    (∀ (rs : List (String × Route)) (path : String),
      (∀ p ∈ rs, p.2.matchFn path = none) →
      findMatchingRoute rs path = (none, [])) ∧
    (∀ (pre : List (String × Route)) (pat : String) (r : Route)
        (post : List (String × Route)) (path : String) (kwargs : Params),
      (∀ p ∈ pre, p.2.matchFn path = none) →
      r.matchFn path = some kwargs →
      findMatchingRoute (pre ++ (pat, r) :: post) path = (some pat, kwargs)) := by
  constructor
  · intro rs path h
    induction rs with
    | nil => rfl
    | cons p rest ih =>
      have hp := h p (by simp)
      have hrest : ∀ q ∈ rest, q.2.matchFn path = none := fun q hq => h q (by simp [hq])
      obtain ⟨pp, rr⟩ := p
      simp only [findMatchingRoute]
      rw [hp]
      exact ih hrest
  · intro pre pat r post path kwargs hpre hr
    induction pre with
    | nil => simp only [List.nil_append, findMatchingRoute]; rw [hr]
    | cons p rest ih =>
      have hp := hpre p (by simp)
      have hrest : ∀ q ∈ rest, q.2.matchFn path = none := fun q hq => hpre q (by simp [hq])
      obtain ⟨pp, rr⟩ := p
      simp only [List.cons_append, findMatchingRoute]
      rw [hp]
      exact ih hrest

/-- C1 witness: a catch-all route registered before the specific `/items`
route shadows it on the path `/items`, and the catch-all's parameters are
returned. -/
theorem find_matching_route_first_match_witness :
    findMatchingRoute [("catchall", routeCatchAll), ("/items", routeItems)] "/items"
      = (some "catchall", [("rest", "/items")]) :=
  find_matching_route_first_match.2 [] "catchall" routeCatchAll [("/items", routeItems)]
    "/items" [("rest", "/items")] (by simp) rfl

/-- C2: `add_error_handler` inserts at the front of the handler list, and
exception resolution picks the first entry (front to back) whose kind the
exception is an instance of, so among all handlers registered for matching
kinds the most recently registered one is invoked. -/
theorem add_error_handler_most_recent_wins :
    (∀ (s : APIState) (k : String) (h : Handler),
      (addErrorHandler s k h).errorHandlers = (k, h) :: s.errorHandlers) ∧
    (∀ (s : APIState) (regs pre post : List (String × Handler)) (k : String)
        (h : Handler) (req : Request) (resp : Response) (e : Exc),
      regs = pre ++ (k, h) :: post →
      k ∈ e.cls →
      (∀ p ∈ post, p.1 ∉ e.cls) →
      handleException (regs.foldl (fun st p => addErrorHandler st p.1 p.2) s) req resp e
        = (some h, Except.ok (h req resp e))) := by
  constructor
  · intro s k h
    rfl
  · intro s regs pre post k h req resp e hregs hk hpost
    have hhs : (regs.foldl (fun st p => addErrorHandler st p.1 p.2) s).errorHandlers
        = post.reverse ++ (k, h) :: (pre.reverse ++ s.errorHandlers) := by
      rw [foldl_addErrorHandler, hregs]
      simp
    have hfind : findHandlers (regs.foldl (fun st p => addErrorHandler st p.1 p.2) s).errorHandlers e
        = h :: findHandlers (pre.reverse ++ s.errorHandlers) e := by
      rw [hhs]
      have hnil : findHandlers post.reverse e =
          [] := findHandlers_eq_nil _ _ (fun p hp => hpost p (List.mem_reverse.mp hp))
      rw [show post.reverse ++ (k, h) :: (pre.reverse ++ s.errorHandlers)
            = post.reverse ++ ((k, h) :: (pre.reverse ++ s.errorHandlers)) from rfl,
          findHandlers_append, hnil]
      simp [findHandlers, hk]
    simp [handleException, hfind]

/-- C2 witness: on a fresh application, registering a handler for kind `A`
and then one for `Exception`, then raising an instance of `A`, invokes the
`Exception` handler (most recently registered), which sets status 502. -/
theorem add_error_handler_most_recent_wins_witness :
    handleException
      ([("A", hA), ("Exception", hExc)].foldl
        (fun st p => addErrorHandler st p.1 p.2) initAPI)
      reqX defaultResponse excA
      = (some hExc, Except.ok (hExc reqX defaultResponse excA)) :=
  add_error_handler_most_recent_wins.2 initAPI [("A", hA), ("Exception", hExc)]
    [("A", hA)] [] "Exception" hExc reqX defaultResponse excA rfl (by decide) (by simp)

/-- C3: `_handle_exception` invokes at most one error handler — the first in
the list whose registered kind matches the exception — and when no
registered kind matches, the exception is re-raised and propagates out of
`dispatch` instead of being swallowed or producing a response. -/
theorem handle_exception_at_most_one :
    (∀ (s : APIState) (req : Request) (resp : Response) (e : Exc),
      (∀ p ∈ s.errorHandlers, p.1 ∉ e.cls) →
      handleException s req resp e = (none, Except.error e)) ∧
    (∀ (s : APIState) (req : Request) (resp : Response) (e : Exc)
        (pre post : List (String × Handler)) (k : String) (h : Handler),
      s.errorHandlers = pre ++ (k, h) :: post →
      (∀ p ∈ pre, p.1 ∉ e.cls) →
      k ∈ e.cls →
      handleException s req resp e = (some h, Except.ok (h req resp e))) ∧
    (∀ (s : APIState) (req : Request) (e : Exc) (pat : String) (r : Route)
        (kwargs : Params),
      findMatchingRoute s.routes req.path = (some pat, kwargs) →
      dictGet pat s.routes = some r →
      r.call req defaultResponse kwargs = Except.error e →
      "Redirection" ∉ e.cls →
      (∀ p ∈ s.errorHandlers, p.1 ∉ e.cls) →
      dispatch s req = (none, Except.error e)) := by
  refine ⟨?_, ?_, ?_⟩
  · intro s req resp e h
    simp [handleException, findHandlers_eq_nil _ _ h]
  · intro s req resp e pre post k h hs hpre hk
    have hfind : findHandlers s.errorHandlers e
        = h :: findHandlers post e := by
      rw [hs, findHandlers_append, findHandlers_eq_nil _ _ hpre]
      simp [findHandlers, hk]
    simp [handleException, hfind]
  · intro s req e pat r kwargs hfound hget hcall hred hnone
    simp only [dispatch, hfound, Option.some_bind, hget, hcall]
    simp [hred, handleException, findHandlers_eq_nil _ _ hnone]

/-- C3 witness: a route raising a `KeyError` on an application whose only
handler kind is `HTTPError`: no kind matches, so dispatch re-raises the
`KeyError` and invokes no handler. -/
theorem handle_exception_at_most_one_witness :
    dispatch
      (routeRegister initAPI "/x" none none catchAllMatch
        (fun _ _ _ => Except.error excKey) (constUrl "/x"))
      reqX
      = (none, Except.error excKey) :=
  handle_exception_at_most_one.2.2
    (routeRegister initAPI "/x" none none catchAllMatch
      (fun _ _ _ => Except.error excKey) (constUrl "/x"))
    reqX excKey "/x"
    (makeRoute "/x" none none catchAllMatch
      (fun _ _ _ => Except.error excKey) (constUrl "/x"))
    [("rest", "/x")] rfl rfl rfl (by decide)
    (by intro p hp; simp [routeRegister, initAPI, addErrorHandler] at hp; simp [hp, excKey])

/-- C4: a `Redirection` raised from a route handler is caught by the inner
`except Redirection` before the error-handler chain is consulted: dispatch
returns the redirect's own response and no registered error handler is ever
invoked, whatever handlers are registered. -/
theorem dispatch_redirection_bypasses_handlers :
    ∀ (s : APIState) (req : Request) (pat : String) (r : Route)
      (kwargs : Params) (e : Exc),
      findMatchingRoute s.routes req.path = (some pat, kwargs) →
      dictGet pat s.routes = some r →
      r.call req defaultResponse kwargs = Except.error e →
      "Redirection" ∈ e.cls →
      dispatch s req = (none, Except.ok (redirectionResponse e)) := by
  intro s req pat r kwargs e hfound hget hcall hred
  simp only [dispatch, hfound, Option.some_bind, hget, hcall]
  simp [hred]

/-- C4 witness: a route raising `Redirection('/target', permanent=False)`
on an application that even has a handler registered for the general kind
`Exception` (which would match the redirect signal): dispatch returns the
302 response toward `/target` and invokes no handler. -/
theorem dispatch_redirection_bypasses_handlers_witness :
    dispatch
      (addErrorHandler
        (routeRegister initAPI "/x" none none catchAllMatch
          (fun _ _ _ => Except.error (redirection "/target" false)) (constUrl "/x"))
        "Exception" hExc)
      reqX
      = (none, Except.ok { statusCode := 302, content := "/target" }) :=
  dispatch_redirection_bypasses_handlers
    (addErrorHandler
      (routeRegister initAPI "/x" none none catchAllMatch
        (fun _ _ _ => Except.error (redirection "/target" false)) (constUrl "/x"))
      "Exception" hExc)
    reqX "/x"
    (makeRoute "/x" none none catchAllMatch
      (fun _ _ _ => Except.error (redirection "/target" false)) (constUrl "/x"))
    [("rest", "/x")] (redirection "/target" false) rfl rfl rfl (by decide)

/-- C5 counterexample: mounting app 1 at `/a` and then app 2 at `/ab`, the
request path `/abc` starts with app 2's mount point `/ab`, yet `_find_app`
delegates it to app 1 (the earlier-registered overlapping mount) with `/a`
stripped — not to app 2 — so "any request whose path starts with p is
delegated to the app mounted at p" fails as stated. -/
theorem find_app_overlapping_mounts_cex :
    ("/ab", 2) ∈ (mount (mount initAPI "/a" 1) "/ab" 2).extraApps ∧
    strStartsWith "/abc" "/ab" = true ∧
    findApp (mount (mount initAPI "/a" 1) "/ab" 2).extraApps "/abc" = some (1, "bc") ∧
    findApp (mount (mount initAPI "/a" 1) "/ab" 2).extraApps "/abc"
      ≠ some (2, strDrop "/abc" (strLen "/ab")) := by
  refine ⟨by decide, rfl, rfl, by decide⟩

/-- C5 as amended: the first mount (in insertion order) whose prefix the
path starts with receives the request, with that prefix stripped from the
path, bypassing the middleware pipeline; in particular an app mounted at
`p` receives every path starting with `p` stripped of `p` whenever no
earlier-mounted prefix also matches, and when no mount prefix matches the
request goes to the common middleware with the scope unchanged (`none`). -/
theorem find_app_first_matching_mount :
    (∀ (pre : List (String × Nat)) (pfx : String) (app : Nat)
        (post : List (String × Nat)) (path : String),
      (∀ q ∈ pre, strStartsWith path q.1 = false) →
      strStartsWith path pfx = true →
      findApp (pre ++ (pfx, app) :: post) path
        = some (app, strDrop path (strLen pfx))) ∧
    (∀ (apps : List (String × Nat)) (path : String),
      (∀ q ∈ apps, strStartsWith path q.1 = false) →
      findApp apps path = none) := by
  constructor
  · intro pre pfx app post path hpre hpfx
    induction pre with
    | nil => simp [findApp, hpfx]
    | cons q rest ih =>
      have hq := hpre q (by simp)
      have hrest : ∀ q' ∈ rest, strStartsWith path q'.1 = false :=
        fun q' hq' => hpre q' (by simp [hq'])
      obtain ⟨qp, qa⟩ := q
      simp only [List.cons_append, findApp]
      rw [hq]
      simp only [Bool.false_eq_true, if_false]
      exact ih hrest
  · intro apps path h
    induction apps with
    | nil => rfl
    | cons q rest ih =>
      have hq := h q (by simp)
      have hrest : ∀ q' ∈ rest, strStartsWith path q'.1 = false :=
        fun q' hq' => h q' (by simp [hq'])
      obtain ⟨qp, qa⟩ := q
      simp only [findApp]
      rw [hq]
      simp only [Bool.false_eq_true, if_false]
      exact ih hrest

/-- C5 witness: with app 7 mounted at `/api` as the only mount, the request
path `/api/x` is delegated to app 7 with path `/x`. -/
theorem find_app_first_matching_mount_witness :
    findApp (mount initAPI "/api" 7).extraApps "/api/x" = some (7, "/x") :=
  find_app_first_matching_mount.1 [] "/api" 7 [] "/api/x" (by simp) rfl

/-- C6: `url_for` raises `HTTPError(404)` when no route is registered under
the given name — it never returns an empty string or `None` — and returns
the named route's generated URL when the name is registered. -/
theorem url_for_404_or_generated :
    ∀ (s : APIState) (name : String) (kwargs : Params),
      (dictGet name s.namedRoutes = none →
        urlFor s name kwargs = Except.error (httpError 404)) ∧
      (∀ r, dictGet name s.namedRoutes = some r →
        urlFor s name kwargs = Except.ok (r.urlFn kwargs)) := by
  intro s name kwargs
  constructor
  · intro h
    simp [urlFor, getRouteOr404, h, Except.map]
  · intro r h
    simp [urlFor, getRouteOr404, h, Except.map]

/-- C6 witness: on a fresh application, `url_for('nope')` raises
`HTTPError(404)`, and after registering a route named `items`,
`url_for('items')` returns that route's URL. -/
theorem url_for_404_or_generated_witness :
    urlFor initAPI "nope" [] = Except.error (httpError 404) ∧
    urlFor (routeRegister initAPI "/items" none (some "items") itemsMatch noCall
      (constUrl "/items")) "items" [] = Except.ok "/items" :=
  ⟨(url_for_404_or_generated initAPI "nope" []).1 rfl,
   (url_for_404_or_generated
      (routeRegister initAPI "/items" none (some "items") itemsMatch noCall
        (constUrl "/items")) "items" []).2
     (makeRoute "/items" none (some "items") itemsMatch noCall (constUrl "/items")) rfl⟩

/-- C7: patterns are unique keys of the route table — registering a second
route under an already-registered pattern replaces the previous route in
place, the number of table entries does not grow, and every other pattern
still maps to its original route. -/
theorem route_register_replaces_pattern :
    ∀ (s : APIState) (pat : String) (methods? : Option (List String))
      (name? : Option String) (mf : String → Option Params)
      (c : Request → Response → Params → Except Exc Response)
      (u : Params → String),
      (∃ r₀, dictGet pat s.routes = some r₀) →
      ((routeRegister s pat methods? name? mf c u).routes.length = s.routes.length) ∧
      (dictGet pat (routeRegister s pat methods? name? mf c u).routes
        = some (makeRoute pat methods? name? mf c u)) ∧
      (∀ q, q ≠ pat →
        dictGet q (routeRegister s pat methods? name? mf c u).routes
          = dictGet q s.routes) := by
  intro s pat methods? name? mf c u ⟨r₀, h₀⟩
  refine ⟨?_, ?_, ?_⟩
  · simpa [routeRegister] using length_dictInsert_of_mem pat _ r₀ s.routes h₀
  · simpa [routeRegister] using
      dictGet_dictInsert_self pat (makeRoute pat methods? name? mf c u) s.routes
  · intro q hq
    simpa [routeRegister] using
      dictGet_dictInsert_ne pat q (makeRoute pat methods? name? mf c u) s.routes hq

/-- C7 witness: after registering `/items` and `other`, re-registering
`/items` keeps two table entries, maps `/items` to the new route, and
leaves `other` mapped to its original route. -/
theorem route_register_replaces_pattern_witness :
    ((routeRegister
        (routeRegister (routeRegister initAPI "/items" none none itemsMatch noCall
          (constUrl "/items")) "other" none none catchAllMatch noCall (constUrl "/o"))
        "/items" (some ["get"]) none itemsMatch noCall (constUrl "/items")).routes.length
      = (routeRegister (routeRegister initAPI "/items" none none itemsMatch noCall
          (constUrl "/items")) "other" none none catchAllMatch noCall
          (constUrl "/o")).routes.length) ∧
    (dictGet "/items"
        (routeRegister
          (routeRegister (routeRegister initAPI "/items" none none itemsMatch noCall
            (constUrl "/items")) "other" none none catchAllMatch noCall (constUrl "/o"))
          "/items" (some ["get"]) none itemsMatch noCall (constUrl "/items")).routes
      = some (makeRoute "/items" (some ["get"]) none itemsMatch noCall
          (constUrl "/items"))) ∧
    (∀ q, q ≠ "/items" →
      dictGet q
          (routeRegister
            (routeRegister (routeRegister initAPI "/items" none none itemsMatch noCall
              (constUrl "/items")) "other" none none catchAllMatch noCall
              (constUrl "/o"))
            "/items" (some ["get"]) none itemsMatch noCall (constUrl "/items")).routes
        = dictGet q
            (routeRegister (routeRegister initAPI "/items" none none itemsMatch noCall
              (constUrl "/items")) "other" none none catchAllMatch noCall
              (constUrl "/o")).routes) :=
  route_register_replaces_pattern
    (routeRegister (routeRegister initAPI "/items" none none itemsMatch noCall
      (constUrl "/items")) "other" none none catchAllMatch noCall (constUrl "/o"))
    "/items" (some ["get"]) none itemsMatch noCall (constUrl "/items")
    ⟨makeRoute "/items" none none itemsMatch noCall (constUrl "/items"), rfl⟩

/-- C8 counterexample: the stored accepted-method collection is neither
deduplicated nor forced non-empty — registering with `methods=['get','get']`
stores `['GET','GET']` (a duplicate), and registering with `methods=[]`
stores an empty collection. -/
theorem route_methods_not_deduplicated_cex :
    ((dictGet "/x" (routeRegister initAPI "/x" (some ["get", "get"]) none
        catchAllMatch noCall (constUrl "/x")).routes).map Route.methods
      = some ["GET", "GET"]) ∧
    ¬ (["GET", "GET"] : List String).Nodup ∧
    ((dictGet "/y" (routeRegister initAPI "/y" (some []) none
        catchAllMatch noCall (constUrl "/y")).routes).map Route.methods
      = some []) :=
  ⟨rfl, by decide, rfl⟩

/-- C8 as amended: the stored accepted-method collection is the given list
upper-cased element-wise, order preserved and duplicates retained (so it is
deduplicated and non-empty only when the given list is); when no methods
argument is given it defaults to the upper-cased list of all HTTP methods. -/
theorem route_methods_uppercased :
    ∀ (s : APIState) (pat : String) (ms : List String) (name? : Option String)
      (mf : String → Option Params)
      (c : Request → Response → Params → Except Exc Response)
      (u : Params → String),
      ((dictGet pat (routeRegister s pat (some ms) name? mf c u).routes).map
          Route.methods = some (ms.map strUpper)) ∧
      ((dictGet pat (routeRegister s pat none name? mf c u).routes).map
          Route.methods = some (ALL_HTTP_METHODS.map strUpper)) := by
  intro s pat ms name? mf c u
  constructor
  · rw [show (routeRegister s pat (some ms) name? mf c u).routes
        = dictInsert pat (makeRoute pat (some ms) name? mf c u) s.routes from rfl,
      dictGet_dictInsert_self]
    rfl
  · rw [show (routeRegister s pat none name? mf c u).routes
        = dictInsert pat (makeRoute pat none name? mf c u) s.routes from rfl,
      dictGet_dictInsert_self]
    rfl

/-- C9: `alias_property` installs the property descriptor on the
application's class, not on the instance, so any other instance of the same
class observes the aliased property, reading — and, with a setter, writing —
the state of the extension instance that triggered the aliasing. -/
theorem alias_property_binds_class :
    ∀ (w : ExtWorld) (a b : ApiInstance) (extId : Nat) (name v : String),
      a.clsId = b.clsId →
      (getProp (aliasProperty w a extId name true) b name
        = dictGet (extId, name) w.extState) ∧
      (setProp (aliasProperty w a extId name true) b name v
        = some { aliasProperty w a extId name true with
                 extState := dictInsert (extId, name) v w.extState }) ∧
      (getProp { aliasProperty w a extId name true with
                 extState := dictInsert (extId, name) v w.extState } a name
        = some v) := by
  intro w a b extId name v hcls
  have hclass : dictGet name (dictGetD b.clsId []
      (aliasProperty w a extId name true).classProps) = some ⟨extId, true⟩ := by
    simp only [aliasProperty, dictGetD, ← hcls, dictGet_dictInsert_self,
      Option.getD_some]
  refine ⟨?_, ?_, ?_⟩
  · simp only [getProp, hclass, Option.some_bind]
    rfl
  · simp only [setProp, hclass, Option.some_bind]
    rfl
  · have hclass' : dictGet name (dictGetD a.clsId []
        ({ aliasProperty w a extId name true with
           extState := dictInsert (extId, name) v w.extState } : ExtWorld).classProps)
        = some ⟨extId, true⟩ := by
      rw [hcls]
      exact hclass
    simp only [getProp, hclass', Option.some_bind]
    exact dictGet_dictInsert_self ..

/-- C9 witness: extension 5 aliasing property `tdir` through one instance of
class 1 makes a second instance of class 1 read extension 5's stored value
and, after that second instance writes `v2`, the write lands in extension
5's state where the first instance reads it back. -/
theorem alias_property_binds_class_witness :
    (getProp (aliasProperty { classProps := [], extState := [((5, "tdir"), "init")] }
        { clsId := 1 } 5 "tdir" true) { clsId := 1 } "tdir" = some "init") ∧
    (setProp (aliasProperty { classProps := [], extState := [((5, "tdir"), "init")] }
        { clsId := 1 } 5 "tdir" true) { clsId := 1 } "tdir" "v2"
      = some { aliasProperty { classProps := [], extState := [((5, "tdir"), "init")] }
                 { clsId := 1 } 5 "tdir" true with
               extState := dictInsert ((5 : Nat), "tdir") "v2"
                 [((5, "tdir"), "init")] }) ∧
    (getProp { aliasProperty { classProps := [], extState := [((5, "tdir"), "init")] }
                 { clsId := 1 } 5 "tdir" true with
               extState := dictInsert ((5 : Nat), "tdir") "v2"
                 [((5, "tdir"), "init")] } { clsId := 1 } "tdir" = some "v2") :=
  alias_property_binds_class { classProps := [], extState := [((5, "tdir"), "init")] }
    { clsId := 1 } { clsId := 1 } 5 "tdir" "v2" rfl

/-- C10 helper: setup steps never remove entries from the error-handler
list. -/
theorem errorHandlers_mem_foldl (steps : List SetupStep) (s : APIState)
    (p : String × Handler) (h : p ∈ s.errorHandlers) :
    p ∈ (steps.foldl applyStep s).errorHandlers := by
  induction steps generalizing s with
  | nil => exact h
  | cons st rest ih =>
    refine ih (applyStep s st) ?_
    cases st with
    | addRoute pat m n mf c u => exact h
    | addErrHandler k hd => exact List.mem_cons_of_mem _ h
    | mountApp pfx app => exact h

/-- C10: every state reachable from construction by setup steps keeps the
built-in `(HTTPError, handle_http_error)` entry (registration only
prepends); consequently every raised exception that is an `HTTPError` —
including the synthesized 404 on a routing miss — is handled by some
handler, and dispatch never re-raises an `HTTPError` to its caller. -/
theorem builtin_http_error_handler_persists :
    ∀ (steps : List SetupStep),
      (("HTTPError", handleHttpError) ∈ (setupAPI steps).errorHandlers) ∧
      (∀ (req : Request) (resp : Response) (e : Exc), "HTTPError" ∈ e.cls →
        ∃ h, handleException (setupAPI steps) req resp e
          = (some h, Except.ok (h req resp e))) ∧
      (∀ (req : Request) (e : Exc),
        (dispatch (setupAPI steps) req).2 = Except.error e →
        "HTTPError" ∉ e.cls) := by
  intro steps
  have hmem : ("HTTPError", handleHttpError) ∈ (setupAPI steps).errorHandlers :=
    errorHandlers_mem_foldl steps initAPI _ (by simp [initAPI, addErrorHandler])
  refine ⟨hmem, ?_, ?_⟩
  · intro req resp e he
    exact handleException_of_mem _ req resp e _ _ hmem he
  · intro req e hdisp he
    have hnil := dispatch_error_no_handlers _ _ _ hdisp
    unfold findHandlers at hnil
    rw [List.filterMap_eq_nil_iff] at hnil
    have := hnil _ hmem
    simp [he] at this

/-- C10 witness: on a freshly constructed application with one mounted app,
the built-in entry is present, and a raised `HTTPError(404)` is handled by
some handler. -/
theorem builtin_http_error_handler_persists_witness :
    (("HTTPError", handleHttpError)
      ∈ (setupAPI [SetupStep.mountApp "sub" 3]).errorHandlers) ∧
    (∃ h, handleException (setupAPI [SetupStep.mountApp "sub" 3]) reqX
        defaultResponse (httpError 404)
      = (some h, Except.ok (h reqX defaultResponse (httpError 404)))) :=
  ⟨(builtin_http_error_handler_persists [SetupStep.mountApp "sub" 3]).1,
   (builtin_http_error_handler_persists [SetupStep.mountApp "sub" 3]).2.1
     reqX defaultResponse (httpError 404) (by decide)⟩

end Bocadillo
